import Mathlib

/-!
Verification development for the portfolio-optimiser repository.

The core under `src/portfoliooptimiser/portfolio_optimiser.py` is embedded
shallowly:

* rational numbers stand for the float values the code manipulates; real
  numbers appear only where the code takes a square root or a natural
  logarithm;
* a `ReturnMatrix` (the spec's T×N matrix of log-returns, §3 of the spec)
  is a function `Fin T → Fin N → ℚ`; the statistics `dfMean`/`dfCov`
  embed `DataFrame.mean()`/`DataFrame.cov()` (sample covariance, ddof = 1)
  on such a complete matrix;
* the price-fetch pipeline (`market_api.get_historical_ticker_data`,
  `_get_log_returns_df`) is embedded on lists of columns whose entries are
  `Option` values: `none` stands for a missing/NaN cell, and the NaN-skipping
  `mean`/`cov` of pandas are `nanMean`/`nanCov` below;
* the SLSQP solver is external to the repository; its outcome is modelled as
  an arbitrary `SolverResult` (iterate plus convergence flag), exactly the
  two pieces of `scipy.optimize.minimize`'s result that the code reads or
  could read.
-/

/-- Modelled from the spec: `src/portfoliooptimiser/constants.py` is not in
the source tree (only its import is), and §4.2 of the spec fixes the
annualisation factor `A` at the default 252 trading periods per year. -/
def TRADING_DAYS_IN_A_YEAR : ℚ := 252

/-- Round half to even on rationals: the tie-breaking rule of `numpy.round`. -/
def roundHalfEven (x : ℚ) : ℤ :=
  if x - ⌊x⌋ < 1/2 then ⌊x⌋
  else if 1/2 < x - ⌊x⌋ then ⌊x⌋ + 1
  else if Even ⌊x⌋ then ⌊x⌋ else ⌊x⌋ + 1

/-- `numpy.ndarray.round(3)` on one entry: scale by 1000, round half to even,
scale back (`portfolio_optimiser.py` lines 171 and 227). -/
def round3 (q : ℚ) : ℚ := (roundHalfEven (1000 * q) : ℚ) / 1000

/-- `returns.mean()` for a complete return matrix: per-column arithmetic mean
over the `T` time steps. -/
def dfMean {T N : ℕ} (R : Fin T → Fin N → ℚ) (j : Fin N) : ℚ :=
  (∑ t, R t j) / (T : ℚ)

/-- `returns.cov()` for a complete return matrix: pandas sample covariance
with `ddof = 1`, denominator `T - 1`. -/
def dfCov {T N : ℕ} (R : Fin T → Fin N → ℚ) (j k : Fin N) : ℚ :=
  (∑ t, (R t j - dfMean R j) * (R t k - dfMean R k)) / ((T : ℚ) - 1)

/-- `PortfolioOptimiser._get_annualised_portfolio_return` (line 90):
`np.sum(returns.mean() * weights) * TRADING_DAYS_IN_A_YEAR`. -/
def get_annualised_portfolio_return {T N : ℕ} (weights : Fin N → ℚ)
    (R : Fin T → Fin N → ℚ) : ℚ :=
  (∑ j, dfMean R j * weights j) * TRADING_DAYS_IN_A_YEAR

/-- The argument of the square root in
`PortfolioOptimiser._get_annualised_portfolio_volatility` (line 105):
`np.dot(weights.T, np.dot(returns.cov() * TRADING_DAYS_IN_A_YEAR, weights))`. -/
def portfolio_variance {T N : ℕ} (weights : Fin N → ℚ)
    (R : Fin T → Fin N → ℚ) : ℚ :=
  ∑ j, weights j * (∑ k, (dfCov R j k * TRADING_DAYS_IN_A_YEAR) * weights k)

/-- `PortfolioOptimiser._get_annualised_portfolio_volatility` (line 105):
the square root of the annualised quadratic form. -/
noncomputable def get_annualised_portfolio_volatility {T N : ℕ}
    (weights : Fin N → ℚ) (R : Fin T → Fin N → ℚ) : ℝ :=
  Real.sqrt ((portfolio_variance weights R : ℚ) : ℝ)

/-- The Sharpe-ratio statistic of spec §4.2, as computed on lines 175-177 and
231-233: `port_return / port_vol if port_vol != 0 else 0.0`. -/
noncomputable def sharpe_ratio_stat {T N : ℕ} (weights : Fin N → ℚ)
    (R : Fin T → Fin N → ℚ) : ℝ :=
  if get_annualised_portfolio_volatility weights R ≠ 0 then
    ((get_annualised_portfolio_return weights R : ℚ) : ℝ) /
      get_annualised_portfolio_volatility weights R
  else 0

/-- `PortfolioOptimiser._create_random_weights` (lines 65-77): the raw draw
`x` (one `np.random.random` value per asset) is normalised by its sum. -/
def create_random_weights {n : ℕ} (x : Fin n → ℚ) : Fin n → ℚ :=
  fun i => x i / ∑ k, x k

/-- The dataclass `PortfolioResult` (lines 28-34). -/
structure PortfolioResult (N : ℕ) where
  weights : Fin N → ℚ
  expected_return : ℚ
  expected_volatility : ℝ
  sharpe_ratio : ℝ

/-- The outcome of `scipy.optimize.minimize`: the solver's best iterate `x`
and its convergence flag `success`.  The solver itself is outside the
repository, so the outcome is a free parameter of the embedding. -/
structure SolverResult (N : ℕ) where
  x : Fin N → ℚ
  success : Bool

/-- `MaximumSharpeRatioOptimiser.optimise_portfolio`, post-solver part
(lines 154-155 and 171-184), on a complete return matrix: round the solver
iterate to 3 decimals, then recompute return, volatility and Sharpe ratio
from the rounded weights, `mean_returns = returns_df.mean() * A` and
`cov_matrix = returns_df.cov() * A`.  The convergence flag of `opts` is not
read. -/
noncomputable def MaximumSharpeRatioOptimiser.optimise_portfolio {T N : ℕ}
    (R : Fin T → Fin N → ℚ) (opts : SolverResult N) : PortfolioResult N :=
  let mean_returns := fun j => dfMean R j * TRADING_DAYS_IN_A_YEAR
  let cov_matrix := fun j k => dfCov R j k * TRADING_DAYS_IN_A_YEAR
  let optimal_weights := fun j => round3 (opts.x j)
  let port_return := ∑ j, optimal_weights j * mean_returns j
  let port_vol :=
    Real.sqrt ((∑ j, optimal_weights j * (∑ k, cov_matrix j k * optimal_weights k) : ℚ) : ℝ)
  let sharpe := if port_vol ≠ 0 then ((port_return : ℚ) : ℝ) / port_vol else 0
  ⟨optimal_weights, port_return, port_vol, sharpe⟩

/-- `MinimumVolatilityOptimiser.optimise_portfolio`, post-solver part
(lines 208-209 and 227-240): identical post-processing of the solver
iterate `optv` (the two variants differ only in the objective handed to the
external solver). -/
noncomputable def MinimumVolatilityOptimiser.optimise_portfolio {T N : ℕ}
    (R : Fin T → Fin N → ℚ) (optv : SolverResult N) : PortfolioResult N :=
  let mean_returns := fun j => dfMean R j * TRADING_DAYS_IN_A_YEAR
  let cov_matrix := fun j k => dfCov R j k * TRADING_DAYS_IN_A_YEAR
  let optimal_weights := fun j => round3 (optv.x j)
  let port_return := ∑ j, optimal_weights j * mean_returns j
  let port_vol :=
    Real.sqrt ((∑ j, optimal_weights j * (∑ k, cov_matrix j k * optimal_weights k) : ℚ) : ℝ)
  let sharpe := if port_vol ≠ 0 then ((port_return : ℚ) : ℝ) / port_vol else 0
  ⟨optimal_weights, port_return, port_vol, sharpe⟩

/-- `PortfolioOptimiser.get_expected_returns_and_volatility` (lines 107-130):
loop `number_of_simulations` times, draw random weights, and collect the two
parallel arrays of annualised returns and annualised volatilities.  `draws`
carries the `S` raw random vectors consumed by the loop. -/
noncomputable def get_expected_returns_and_volatility {N : ℕ} (S : ℕ)
    (draws : Fin S → Fin N → ℚ) {T : ℕ} (R : Fin T → Fin N → ℚ) :
    List ℚ × List ℝ :=
  (List.ofFn (fun i =>
      get_annualised_portfolio_return (create_random_weights (draws i)) R),
   List.ofFn (fun i =>
      get_annualised_portfolio_volatility (create_random_weights (draws i)) R))

/-!
The price-fetch pipeline.  A price table is the list of the columns of the
fetched DataFrame (one column per ticker); a cell is `none` when the value is
missing, and the cells of a log-return frame are `none` exactly where the
float code would hold NaN.
-/

/-- The only failure the pipeline raises: the `ValueError` of
`YFinanceAPI.get_historical_ticker_data` (`market_api.py` lines 48-49), named
`DataUnavailableError` in the spec's error taxonomy (§7). -/
inductive MarketDataError where
  | dataUnavailable
deriving DecidableEq

/-- `YFinanceAPI.get_historical_ticker_data` (`market_api.py` lines 31-60):
`yf.download` either yields nothing (`none`) or a table; the method raises
when `data is None or data.empty` and otherwise returns the table. -/
def get_historical_ticker_data
    (fetched : Option (List (List (Option ℚ)))) :
    Except MarketDataError (List (List (Option ℚ))) :=
  match fetched with
  | none => .error .dataUnavailable
  | some data =>
      if data.all List.isEmpty then .error .dataUnavailable else .ok data

/-- `DataFrame.shift(1)` on one column: every value moves down one row, the
first row becomes missing, the last value drops off, the length is kept. -/
def shift1 (xs : List (Option ℚ)) : List (Option ℚ) :=
  none :: xs.dropLast

/-- One cell of `np.log(historical_data / historical_data.shift(1))`: defined
exactly when both prices are present and their ratio is positive; otherwise
the float code holds NaN, embedded as `none`.  (When the previous price is
exactly zero the float code would produce an infinity instead; no theorem
below evaluates that cell.) -/
noncomputable def log_ratio (prev cur : Option ℚ) : Option ℝ :=
  match prev, cur with
  | some a, some b =>
      if 0 < b / a then some (Real.log (((b / a : ℚ) : ℝ))) else none
  | _, _ => none

/-- One column of `np.log(historical_data / historical_data.shift(1))`
(`portfolio_optimiser.py` line 59). -/
noncomputable def log_returns_col (xs : List (Option ℚ)) : List (Option ℝ) :=
  List.zipWith log_ratio (shift1 xs) xs

/-- `PortfolioOptimiser._get_log_returns_df` (lines 43-63): fetch, then take
the elementwise log-ratio of consecutive rows in every column.  No other
error is raised and no row is removed. -/
noncomputable def get_log_returns_df
    (fetched : Option (List (List (Option ℚ)))) :
    Except MarketDataError (List (List (Option ℝ))) :=
  (get_historical_ticker_data fetched).map (List.map log_returns_col)

/-- `DataFrame.mean()` on one column with missing values: pandas skips the
missing cells and averages the rest. -/
noncomputable def nanMean (xs : List (Option ℝ)) : ℝ :=
  ((xs.filterMap id).sum) / ((xs.filterMap id).length : ℝ)

/-- The pairwise-complete observations of two columns: the rows where both
cells are present, as used by `DataFrame.cov()`. -/
def pairwiseComplete (xs ys : List (Option ℝ)) : List (ℝ × ℝ) :=
  (List.zip xs ys).filterMap
    (fun p => p.1.bind (fun a => p.2.map (fun b => (a, b))))

/-- One entry of `DataFrame.cov()` with missing values: pandas computes the
sample covariance (`ddof = 1`) over the pairwise-complete rows, centring each
column at its mean over those rows. -/
noncomputable def nanCov (xs ys : List (Option ℝ)) : ℝ :=
  let ps := pairwiseComplete xs ys
  let mx := (ps.map Prod.fst).sum / (ps.length : ℝ)
  let my := (ps.map Prod.snd).sum / (ps.length : ℝ)
  (ps.map (fun p => (p.1 - mx) * (p.2 - my))).sum / ((ps.length : ℝ) - 1)

/-- The solver outcome of the pipeline embedding, with a list iterate. -/
structure SolverResultL where
  x : List ℚ
  success : Bool

/-- The dataclass `PortfolioResult` as produced by the pipeline embedding. -/
structure PortfolioResultL where
  weights : List ℚ
  expected_return : ℝ
  expected_volatility : ℝ
  sharpe_ratio : ℝ

/-- The post-solver part of both `optimise_portfolio` methods
(lines 154-155, 171-184 and 208-209, 227-240) on the raw log-return frame:
round the solver iterate, recompute `np.sum(optimal_weights * mean_returns)`
and the quadratic form over `cov_matrix = returns_df.cov() * A`, take the
square root, and form the Sharpe ratio.  Only the `x` field of the solver
outcome is read; the convergence flag is discarded. -/
noncomputable def build_portfolio_result (frame : List (List (Option ℝ)))
    (opts : SolverResultL) : PortfolioResultL :=
  let A : ℝ := ((TRADING_DAYS_IN_A_YEAR : ℚ) : ℝ)
  let optimal_weights := opts.x.map round3
  let port_return :=
    (List.zipWith (fun w c => ((w : ℚ) : ℝ) * (nanMean c * A))
      optimal_weights frame).sum
  let quad :=
    (List.zipWith (fun wj cj => ((wj : ℚ) : ℝ) *
        (List.zipWith (fun wk ck => (nanCov cj ck * A) * ((wk : ℚ) : ℝ))
          optimal_weights frame).sum)
      optimal_weights frame).sum
  let port_vol := Real.sqrt quad
  let sharpe := if port_vol ≠ 0 then port_return / port_vol else 0
  ⟨optimal_weights, port_return, port_vol, sharpe⟩

/-- `MaximumSharpeRatioOptimiser.optimise_portfolio` (lines 140-184), whole
pipeline: fetch and build the log-return frame, hand the objective to the
external solver (whose outcome is the parameter `opts`), then post-process.
Any fetch error propagates unchanged; nothing else can fail. -/
noncomputable def MaximumSharpeRatioOptimiser.optimise_portfolio_pipeline
    (fetched : Option (List (List (Option ℚ)))) (opts : SolverResultL) :
    Except MarketDataError PortfolioResultL :=
  (get_log_returns_df fetched).map (fun frame => build_portfolio_result frame opts)

/-- `MinimumVolatilityOptimiser.optimise_portfolio` (lines 194-240), whole
pipeline: identical shape, only the objective handed to the external solver
differs. -/
noncomputable def MinimumVolatilityOptimiser.optimise_portfolio_pipeline
    (fetched : Option (List (List (Option ℚ)))) (optv : SolverResultL) :
    Except MarketDataError PortfolioResultL :=
  (get_log_returns_df fetched).map (fun frame => build_portfolio_result frame optv)

/-!  Helper lemmas.  -/

theorem roundHalfEven_abs_sub_le (x : ℚ) : |(roundHalfEven x : ℚ) - x| ≤ 1/2 := by
  have h0 : (⌊x⌋ : ℚ) ≤ x := Int.floor_le x
  have h1 : x < (⌊x⌋ : ℚ) + 1 := Int.lt_floor_add_one x
  unfold roundHalfEven
  split_ifs with hlt hgt hev
  · rw [abs_sub_comm, abs_of_nonneg (by linarith)]
    linarith
  · push_cast
    rw [abs_of_nonneg (by linarith)]
    linarith
  · rw [abs_sub_comm, abs_of_nonneg (by linarith)]
    linarith
  · push_cast
    rw [abs_of_nonneg (by linarith)]
    linarith

theorem roundHalfEven_ge (x : ℚ) (m : ℤ) (h : (m : ℚ) ≤ x) :
    m ≤ roundHalfEven x := by
  have hm : m ≤ ⌊x⌋ := Int.le_floor.mpr h
  unfold roundHalfEven
  split_ifs <;> omega

theorem roundHalfEven_le (x : ℚ) (m : ℤ) (h : x ≤ (m : ℚ)) :
    roundHalfEven x ≤ m := by
  have hm : ⌊x⌋ ≤ m := by
    have := Int.floor_le_floor h
    simpa using this
  unfold roundHalfEven
  split_ifs with hlt hgt hev
  · exact hm
  · rcases lt_or_eq_of_le hm with hlt2 | heq
    · omega
    · exfalso
      have : x ≤ (⌊x⌋ : ℚ) := by rw [heq]; exact_mod_cast h
      have : x - ⌊x⌋ ≤ 0 := by linarith
      linarith
  · rcases lt_or_eq_of_le hm with hlt2 | heq
    · omega
    · exfalso
      have : x ≤ (⌊x⌋ : ℚ) := by rw [heq]; exact_mod_cast h
      have : x - ⌊x⌋ ≤ 0 := by linarith
      linarith
  · rcases lt_or_eq_of_le hm with hlt2 | heq
    · omega
    · exfalso
      have : x ≤ (⌊x⌋ : ℚ) := by rw [heq]; exact_mod_cast h
      have : x - ⌊x⌋ ≤ 0 := by linarith
      linarith

theorem round3_abs_sub_le (q : ℚ) : |round3 q - q| ≤ 1/2000 := by
  have h := roundHalfEven_abs_sub_le (1000 * q)
  unfold round3
  have h2 : (roundHalfEven (1000 * q) : ℚ) / 1000 - q
      = ((roundHalfEven (1000 * q) : ℚ) - 1000 * q) / 1000 := by ring
  have h1000 : |(1000 : ℚ)| = 1000 := by norm_num
  rw [h2, abs_div, h1000, div_le_iff₀ (by norm_num)]
  linarith [h]

theorem round3_nonneg (q : ℚ) (h : 0 ≤ q) : 0 ≤ round3 q := by
  unfold round3
  apply div_nonneg _ (by norm_num)
  exact_mod_cast roundHalfEven_ge (1000 * q) 0 (by push_cast; nlinarith)

theorem round3_le_one (q : ℚ) (h : q ≤ 1) : round3 q ≤ 1 := by
  unfold round3
  rw [div_le_one (by norm_num)]
  exact_mod_cast roundHalfEven_le (1000 * q) 1000 (by push_cast; nlinarith)

theorem sum_mul_sum_sq {T N : ℕ} (w : Fin N → ℚ) (c : Fin T → Fin N → ℚ) :
    ∑ j, ∑ k, (w j * w k) * (∑ t, c t j * c t k)
      = ∑ t, (∑ j, w j * c t j) ^ 2 := by
  calc ∑ j, ∑ k, (w j * w k) * (∑ t, c t j * c t k)
      = ∑ j, ∑ k, ∑ t, (w j * c t j) * (w k * c t k) := by
        refine Finset.sum_congr rfl fun j _ => Finset.sum_congr rfl fun k _ => ?_
        rw [Finset.mul_sum]
        exact Finset.sum_congr rfl fun t _ => by ring
    _ = ∑ j, ∑ t, ∑ k, (w j * c t j) * (w k * c t k) := by
        exact Finset.sum_congr rfl fun j _ => Finset.sum_comm
    _ = ∑ t, ∑ j, ∑ k, (w j * c t j) * (w k * c t k) := Finset.sum_comm
    _ = ∑ t, (∑ j, w j * c t j) * (∑ k, w k * c t k) := by
        refine Finset.sum_congr rfl fun t _ => ?_
        rw [Finset.sum_mul_sum]
    _ = ∑ t, (∑ j, w j * c t j) ^ 2 := by
        exact Finset.sum_congr rfl fun t _ => by rw [sq]

theorem portfolio_variance_eq_sum_sq {T N : ℕ} (w : Fin N → ℚ)
    (R : Fin T → Fin N → ℚ) :
    portfolio_variance w R
      = (∑ t, (∑ j, w j * (R t j - dfMean R j)) ^ 2)
          * (TRADING_DAYS_IN_A_YEAR / ((T : ℚ) - 1)) := by
  unfold portfolio_variance dfCov
  calc ∑ j, w j * (∑ k,
          ((∑ t, (R t j - dfMean R j) * (R t k - dfMean R k)) / ((T : ℚ) - 1)
            * TRADING_DAYS_IN_A_YEAR) * w k)
      = ∑ j, ∑ k, (w j * w k)
          * (∑ t, (R t j - dfMean R j) * (R t k - dfMean R k))
          * (TRADING_DAYS_IN_A_YEAR / ((T : ℚ) - 1)) := by
        refine Finset.sum_congr rfl fun j _ => ?_
        rw [Finset.mul_sum]
        exact Finset.sum_congr rfl fun k _ => by ring
    _ = (∑ j, ∑ k, (w j * w k)
          * (∑ t, (R t j - dfMean R j) * (R t k - dfMean R k)))
          * (TRADING_DAYS_IN_A_YEAR / ((T : ℚ) - 1)) := by
        rw [Finset.sum_mul]
        exact Finset.sum_congr rfl fun j _ => (Finset.sum_mul _ _ _).symm
    _ = (∑ t, (∑ j, w j * (R t j - dfMean R j)) ^ 2)
          * (TRADING_DAYS_IN_A_YEAR / ((T : ℚ) - 1)) := by
        rw [sum_mul_sum_sq]

theorem portfolio_variance_nonneg {T N : ℕ} (w : Fin N → ℚ)
    (R : Fin T → Fin N → ℚ) : 0 ≤ portfolio_variance w R := by
  rw [portfolio_variance_eq_sum_sq]
  rcases Nat.eq_zero_or_pos T with hT | hT
  · subst hT
    simp
  · apply mul_nonneg
    · exact Finset.sum_nonneg fun t _ => sq_nonneg _
    · apply div_nonneg
      · norm_num [TRADING_DAYS_IN_A_YEAR]
      · have : (1 : ℚ) ≤ (T : ℚ) := by exact_mod_cast hT
        linarith

theorem annualised_return_comm {T N : ℕ} (w : Fin N → ℚ)
    (R : Fin T → Fin N → ℚ) :
    ∑ j, w j * (dfMean R j * TRADING_DAYS_IN_A_YEAR)
      = get_annualised_portfolio_return w R := by
  unfold get_annualised_portfolio_return
  rw [Finset.sum_mul]
  exact Finset.sum_congr rfl fun j _ => by ring

/-- Claim C6: for every weight vector and every ReturnMatrix the argument of
the square root in `_get_annualised_portfolio_volatility` — the quadratic
form of the annualised sample covariance matrix — is non-negative (positive
semi-definiteness), so the volatility is a well-defined square root and is
itself non-negative. -/
theorem annualised_volatility_nonneg {T N : ℕ} (w : Fin N → ℚ)
    (R : Fin T → Fin N → ℚ) :
    0 ≤ portfolio_variance w R ∧
    get_annualised_portfolio_volatility w R
      = Real.sqrt ((portfolio_variance w R : ℚ) : ℝ) ∧
    0 ≤ get_annualised_portfolio_volatility w R :=
  ⟨portfolio_variance_nonneg w R, rfl, Real.sqrt_nonneg _⟩

/-- Claim C1: the statistics stored in the `PortfolioResult` of either
optimiser variant are exactly the §4.2 annualisation statistics recomputed
from the result's own rounded-to-3-decimals weights and the same
ReturnMatrix: the reported values correspond to the rounded weights, not to
the solver's unrounded iterate. -/
theorem optimise_portfolio_round_trip {T N : ℕ} (R : Fin T → Fin N → ℚ)
    (o : SolverResult N) :
    ((MaximumSharpeRatioOptimiser.optimise_portfolio R o).expected_return
        = get_annualised_portfolio_return
            (MaximumSharpeRatioOptimiser.optimise_portfolio R o).weights R) ∧
    ((MaximumSharpeRatioOptimiser.optimise_portfolio R o).expected_volatility
        = get_annualised_portfolio_volatility
            (MaximumSharpeRatioOptimiser.optimise_portfolio R o).weights R) ∧
    ((MaximumSharpeRatioOptimiser.optimise_portfolio R o).sharpe_ratio
        = sharpe_ratio_stat
            (MaximumSharpeRatioOptimiser.optimise_portfolio R o).weights R) ∧
    ((MinimumVolatilityOptimiser.optimise_portfolio R o).expected_return
        = get_annualised_portfolio_return
            (MinimumVolatilityOptimiser.optimise_portfolio R o).weights R) ∧
    ((MinimumVolatilityOptimiser.optimise_portfolio R o).expected_volatility
        = get_annualised_portfolio_volatility
            (MinimumVolatilityOptimiser.optimise_portfolio R o).weights R) ∧
    ((MinimumVolatilityOptimiser.optimise_portfolio R o).sharpe_ratio
        = sharpe_ratio_stat
            (MinimumVolatilityOptimiser.optimise_portfolio R o).weights R) := by
  have hr : (∑ j, round3 (o.x j) * (dfMean R j * TRADING_DAYS_IN_A_YEAR))
      = get_annualised_portfolio_return (fun j => round3 (o.x j)) R :=
    annualised_return_comm (fun j => round3 (o.x j)) R
  refine ⟨hr, rfl, ?_, hr, rfl, ?_⟩ <;>
  · show (if Real.sqrt ((portfolio_variance (fun j => round3 (o.x j)) R : ℚ) : ℝ) ≠ 0
        then ((∑ j, round3 (o.x j) * (dfMean R j * TRADING_DAYS_IN_A_YEAR) : ℚ) : ℝ)
              / Real.sqrt ((portfolio_variance (fun j => round3 (o.x j)) R : ℚ) : ℝ)
        else 0)
      = sharpe_ratio_stat (fun j => round3 (o.x j)) R
    rw [hr]
    rfl

/-- Claim C5 (amended): the stored Sharpe ratio is 0 when the annualised
volatility is 0, and equals return divided by volatility when the volatility
is nonzero; consequently it is 0 exactly when the volatility is 0 OR the
annualised return is 0 — the plain "sharpe = 0 iff volatility = 0" fails,
because a zero-mean return matrix with positive variance gives Sharpe 0 at
positive volatility. -/
theorem sharpe_ratio_zero_cases {T N : ℕ} (w : Fin N → ℚ)
    (R : Fin T → Fin N → ℚ) :
    (get_annualised_portfolio_volatility w R = 0 → sharpe_ratio_stat w R = 0) ∧
    (get_annualised_portfolio_volatility w R ≠ 0 →
      sharpe_ratio_stat w R
        = ((get_annualised_portfolio_return w R : ℚ) : ℝ)
            / get_annualised_portfolio_volatility w R) ∧
    (sharpe_ratio_stat w R = 0 ↔
      (get_annualised_portfolio_volatility w R = 0 ∨
        get_annualised_portfolio_return w R = 0)) := by
  refine ⟨fun h => by simp [sharpe_ratio_stat, h],
          fun h => by simp [sharpe_ratio_stat, h], ?_⟩
  by_cases h : get_annualised_portfolio_volatility w R = 0
  · simp [sharpe_ratio_stat, h]
  · rw [sharpe_ratio_stat, if_pos h, div_eq_zero_iff]
    simp [h, Rat.cast_eq_zero]

/-- Witness for claim C5's amended theorem at a concrete input: one asset,
one time step, zero returns; the volatility is 0 and the Sharpe ratio is 0. -/
theorem sharpe_ratio_zero_cases_witness :
    get_annualised_portfolio_volatility (fun _ : Fin 1 => (1 : ℚ))
        (fun (_ : Fin 1) (_ : Fin 1) => (0 : ℚ)) = 0 ∧
    sharpe_ratio_stat (fun _ : Fin 1 => (1 : ℚ))
        (fun (_ : Fin 1) (_ : Fin 1) => (0 : ℚ)) = 0 := by
  have hvar : portfolio_variance (fun _ : Fin 1 => (1 : ℚ))
      (fun (_ : Fin 1) (_ : Fin 1) => (0 : ℚ)) = 0 := by
    simp [portfolio_variance, dfCov, dfMean, Fin.sum_univ_succ]
  have hvol : get_annualised_portfolio_volatility (fun _ : Fin 1 => (1 : ℚ))
      (fun (_ : Fin 1) (_ : Fin 1) => (0 : ℚ)) = 0 := by
    rw [get_annualised_portfolio_volatility, hvar]
    simp
  exact ⟨hvol, (sharpe_ratio_zero_cases (fun _ : Fin 1 => (1 : ℚ))
      (fun (_ : Fin 1) (_ : Fin 1) => (0 : ℚ))).1 hvol⟩

theorem round3_one : round3 1 = 1 := by
  rw [round3, roundHalfEven]
  norm_num

theorem two_step_mean_zero :
    dfMean (fun (t : Fin 2) (_ : Fin 1) => if t = 0 then (1 : ℚ) else -1)
      = fun _ => 0 := by
  funext j
  rw [dfMean, Fin.sum_univ_two]
  norm_num

theorem two_step_variance :
    portfolio_variance (fun _ : Fin 1 => round3 ((1 : ℚ)))
      (fun (t : Fin 2) (_ : Fin 1) => if t = 0 then (1 : ℚ) else -1) = 504 := by
  rw [portfolio_variance]
  rw [Fin.sum_univ_one, Fin.sum_univ_one, dfCov, Fin.sum_univ_two, two_step_mean_zero]
  rw [round3_one, TRADING_DAYS_IN_A_YEAR]
  norm_num

/-- Counterexample refuting claim C5 as stated: one asset with log-returns
`[1, -1]` has zero mean return but sample variance 2, so the stored result
(weights `[1]`) has Sharpe ratio 0 while its volatility `sqrt(504)` is
nonzero — "sharpe = 0 exactly when volatility = 0" is false. -/
theorem sharpe_ratio_iff_counterexample :
    (MaximumSharpeRatioOptimiser.optimise_portfolio
        (fun (t : Fin 2) (_ : Fin 1) => if t = 0 then (1 : ℚ) else -1)
        ⟨fun _ => 1, true⟩).sharpe_ratio = 0 ∧
    (MaximumSharpeRatioOptimiser.optimise_portfolio
        (fun (t : Fin 2) (_ : Fin 1) => if t = 0 then (1 : ℚ) else -1)
        ⟨fun _ => 1, true⟩).expected_volatility ≠ 0 := by
  have hret : (MaximumSharpeRatioOptimiser.optimise_portfolio
      (fun (t : Fin 2) (_ : Fin 1) => if t = 0 then (1 : ℚ) else -1)
      ⟨fun _ => 1, true⟩).expected_return = 0 := by
    show (∑ j : Fin 1, round3 ((1 : ℚ)) *
        (dfMean (fun (t : Fin 2) (_ : Fin 1) => if t = 0 then (1 : ℚ) else -1) j
          * TRADING_DAYS_IN_A_YEAR)) = 0
    rw [Fin.sum_univ_one, two_step_mean_zero]
    norm_num
  have hvol : (MaximumSharpeRatioOptimiser.optimise_portfolio
      (fun (t : Fin 2) (_ : Fin 1) => if t = 0 then (1 : ℚ) else -1)
      ⟨fun _ => 1, true⟩).expected_volatility = Real.sqrt ((504 : ℚ) : ℝ) := by
    show Real.sqrt ((portfolio_variance (fun _ : Fin 1 => round3 ((1 : ℚ)))
        (fun (t : Fin 2) (_ : Fin 1) => if t = 0 then (1 : ℚ) else -1) : ℚ) : ℝ)
      = Real.sqrt ((504 : ℚ) : ℝ)
    rw [two_step_variance]
  have hvolne : (MaximumSharpeRatioOptimiser.optimise_portfolio
      (fun (t : Fin 2) (_ : Fin 1) => if t = 0 then (1 : ℚ) else -1)
      ⟨fun _ => 1, true⟩).expected_volatility ≠ 0 := by
    rw [hvol]
    have h504 : (0 : ℝ) < ((504 : ℚ) : ℝ) := by norm_num
    have := Real.sqrt_pos.mpr h504
    linarith
  refine ⟨?_, hvolne⟩
  show (if (MaximumSharpeRatioOptimiser.optimise_portfolio
      (fun (t : Fin 2) (_ : Fin 1) => if t = 0 then (1 : ℚ) else -1)
      ⟨fun _ => 1, true⟩).expected_volatility ≠ 0
    then (((MaximumSharpeRatioOptimiser.optimise_portfolio
      (fun (t : Fin 2) (_ : Fin 1) => if t = 0 then (1 : ℚ) else -1)
      ⟨fun _ => 1, true⟩).expected_return : ℚ) : ℝ)
        / (MaximumSharpeRatioOptimiser.optimise_portfolio
      (fun (t : Fin 2) (_ : Fin 1) => if t = 0 then (1 : ℚ) else -1)
      ⟨fun _ => 1, true⟩).expected_volatility
    else 0) = 0
  rw [hret]
  simp

theorem round3_sum_close {N : ℕ} (x : Fin N → ℚ) (hsum : ∑ j, x j = 1) :
    |(∑ j, round3 (x j)) - 1| ≤ (N : ℚ) / 2000 := by
  have h1 : (∑ j, round3 (x j)) - 1 = ∑ j, (round3 (x j) - x j) := by
    rw [← hsum, ← Finset.sum_sub_distrib]
  rw [h1]
  calc |∑ j, (round3 (x j) - x j)| ≤ ∑ j, |round3 (x j) - x j| :=
        Finset.abs_sum_le_sum_abs _ _
    _ ≤ ∑ _j : Fin N, (1/2000 : ℚ) :=
        Finset.sum_le_sum fun j _ => round3_abs_sub_le (x j)
    _ = (N : ℚ) / 2000 := by
        rw [Finset.sum_const, Finset.card_univ, Fintype.card_fin, nsmul_eq_mul]
        ring

/-- Claim C2 (amended): every component of every produced WeightVector lies
in `[0, 1]`; the sampler's weights (for a draw of non-negative values with a
positive sum) sum exactly to 1; the optimisers' stored weights, whenever the
solver's iterate lies on the unit simplex, sum to within `N * 0.0005` of 1 —
a bound that can exceed the claimed `1e-3` once `N ≥ 4`, because each of the
`N` components may move by up to `0.0005` under rounding to 3 decimals. -/
theorem weight_vector_invariants {n T N : ℕ} (d : Fin n → ℚ)
    (R : Fin T → Fin N → ℚ) (o : SolverResult N) :
    ((∀ i, 0 ≤ d i) → 0 < ∑ i, d i →
      (∀ i, 0 ≤ create_random_weights d i ∧ create_random_weights d i ≤ 1) ∧
      ∑ i, create_random_weights d i = 1) ∧
    ((∀ j, 0 ≤ o.x j ∧ o.x j ≤ 1) → ∑ j, o.x j = 1 →
      (∀ j, 0 ≤ (MaximumSharpeRatioOptimiser.optimise_portfolio R o).weights j ∧
        (MaximumSharpeRatioOptimiser.optimise_portfolio R o).weights j ≤ 1) ∧
      |(∑ j, (MaximumSharpeRatioOptimiser.optimise_portfolio R o).weights j) - 1|
        ≤ (N : ℚ) / 2000) ∧
    ((∀ j, 0 ≤ o.x j ∧ o.x j ≤ 1) → ∑ j, o.x j = 1 →
      (∀ j, 0 ≤ (MinimumVolatilityOptimiser.optimise_portfolio R o).weights j ∧
        (MinimumVolatilityOptimiser.optimise_portfolio R o).weights j ≤ 1) ∧
      |(∑ j, (MinimumVolatilityOptimiser.optimise_portfolio R o).weights j) - 1|
        ≤ (N : ℚ) / 2000) := by
  refine ⟨fun hpos hsum => ⟨fun i => ⟨?_, ?_⟩, ?_⟩,
          fun hbox hsum => ⟨fun j => ⟨?_, ?_⟩, ?_⟩,
          fun hbox hsum => ⟨fun j => ⟨?_, ?_⟩, ?_⟩⟩
  · exact div_nonneg (hpos i) (le_of_lt hsum)
  · exact (div_le_one hsum).mpr
      (Finset.single_le_sum (fun k _ => hpos k) (Finset.mem_univ i))
  · show ∑ i, d i / (∑ k, d k) = 1
    rw [← Finset.sum_div]
    exact div_self (ne_of_gt hsum)
  · exact round3_nonneg (o.x j) (hbox j).1
  · exact round3_le_one (o.x j) (hbox j).2
  · exact round3_sum_close o.x hsum
  · exact round3_nonneg (o.x j) (hbox j).1
  · exact round3_le_one (o.x j) (hbox j).2
  · exact round3_sum_close o.x hsum

/-- Witness for claim C2's amended theorem at a concrete input: the draw
`[1/3, 2/3]` and the feasible solver iterate `[1/2, 1/2]` over 2 assets. -/
theorem weight_vector_invariants_witness :
    ((∀ i, 0 ≤ create_random_weights (![1/3, 2/3] : Fin 2 → ℚ) i ∧
        create_random_weights (![1/3, 2/3] : Fin 2 → ℚ) i ≤ 1) ∧
      ∑ i, create_random_weights (![1/3, 2/3] : Fin 2 → ℚ) i = 1) ∧
    ((∀ j, 0 ≤ (MaximumSharpeRatioOptimiser.optimise_portfolio
          (fun (_ : Fin 1) (_ : Fin 2) => (0 : ℚ))
          ⟨![1/2, 1/2], true⟩).weights j ∧
        (MaximumSharpeRatioOptimiser.optimise_portfolio
          (fun (_ : Fin 1) (_ : Fin 2) => (0 : ℚ))
          ⟨![1/2, 1/2], true⟩).weights j ≤ 1) ∧
      |(∑ j, (MaximumSharpeRatioOptimiser.optimise_portfolio
          (fun (_ : Fin 1) (_ : Fin 2) => (0 : ℚ))
          ⟨![1/2, 1/2], true⟩).weights j) - 1| ≤ ((2 : ℕ) : ℚ) / 2000) ∧
    ((∀ j, 0 ≤ (MinimumVolatilityOptimiser.optimise_portfolio
          (fun (_ : Fin 1) (_ : Fin 2) => (0 : ℚ))
          ⟨![1/2, 1/2], true⟩).weights j ∧
        (MinimumVolatilityOptimiser.optimise_portfolio
          (fun (_ : Fin 1) (_ : Fin 2) => (0 : ℚ))
          ⟨![1/2, 1/2], true⟩).weights j ≤ 1) ∧
      |(∑ j, (MinimumVolatilityOptimiser.optimise_portfolio
          (fun (_ : Fin 1) (_ : Fin 2) => (0 : ℚ))
          ⟨![1/2, 1/2], true⟩).weights j) - 1| ≤ ((2 : ℕ) : ℚ) / 2000) := by
  have h := weight_vector_invariants (![1/3, 2/3] : Fin 2 → ℚ)
    (fun (_ : Fin 1) (_ : Fin 2) => (0 : ℚ))
    (⟨![1/2, 1/2], true⟩ : SolverResult 2)
  have hpos : ∀ i, 0 ≤ (![1/3, 2/3] : Fin 2 → ℚ) i := by
    intro i; fin_cases i <;> norm_num
  have hsum : 0 < ∑ i, (![1/3, 2/3] : Fin 2 → ℚ) i := by
    rw [Fin.sum_univ_two]; norm_num
  have hbox : ∀ j, 0 ≤ (⟨![1/2, 1/2], true⟩ : SolverResult 2).x j ∧
      (⟨![1/2, 1/2], true⟩ : SolverResult 2).x j ≤ 1 := by
    intro j; fin_cases j <;> constructor <;> norm_num
  have hone : ∑ j, (⟨![1/2, 1/2], true⟩ : SolverResult 2).x j = 1 := by
    rw [Fin.sum_univ_two]; norm_num
  exact ⟨h.1 hpos hsum, h.2.1 hbox hone, h.2.2 hbox hone⟩

/-- Counterexample refuting claim C2 as stated: the feasible solver iterate
`[0.2005, 0.2005, 0.2005, 0.3985]` (components in `[0, 1]`, summing exactly
to 1) rounds half-to-even to `[0.2, 0.2, 0.2, 0.398]`, so the stored
weights sum to `0.998` — off by `0.002 > 1e-3`. -/
theorem weight_sum_tolerance_counterexample :
    (∀ j, 0 ≤ (![0.2005, 0.2005, 0.2005, 0.3985] : Fin 4 → ℚ) j ∧
      (![0.2005, 0.2005, 0.2005, 0.3985] : Fin 4 → ℚ) j ≤ 1) ∧
    (∑ j, (![0.2005, 0.2005, 0.2005, 0.3985] : Fin 4 → ℚ) j) = 1 ∧
    ¬ (|(∑ j, (MaximumSharpeRatioOptimiser.optimise_portfolio
          (fun (_ : Fin 1) (_ : Fin 4) => (0 : ℚ))
          ⟨![0.2005, 0.2005, 0.2005, 0.3985], true⟩).weights j) - 1|
        ≤ 1/1000) := by
  refine ⟨by intro j; fin_cases j <;> constructor <;> norm_num,
          by rw [Fin.sum_univ_four]; norm_num, ?_⟩
  have hs : (∑ j, (MaximumSharpeRatioOptimiser.optimise_portfolio
      (fun (_ : Fin 1) (_ : Fin 4) => (0 : ℚ))
      ⟨![0.2005, 0.2005, 0.2005, 0.3985], true⟩).weights j) = 499/500 := by
    show (∑ j : Fin 4,
        round3 ((![0.2005, 0.2005, 0.2005, 0.3985] : Fin 4 → ℚ) j)) = 499/500
    rw [Fin.sum_univ_four]
    norm_num [round3, roundHalfEven, Int.even_iff]
  rw [hs]
  intro habs
  rw [abs_le] at habs
  have := habs.1
  norm_num at this

/-- Claim C7: for every configured simulation count `S`, ticker universe and
ReturnMatrix, `get_expected_returns_and_volatility` yields two parallel
arrays of length exactly `S`, whose `i`-th entries are the §4.2 annualised
return and annualised volatility of the `i`-th randomly drawn weight vector
(the shared statistics), and every volatility value is a well-defined
non-negative real (in particular no square root of a negative number is
taken, the model's rendering of "all values finite"). -/
theorem expected_returns_and_volatility_parallel {N T : ℕ} (S : ℕ)
    (draws : Fin S → Fin N → ℚ) (R : Fin T → Fin N → ℚ) :
    (get_expected_returns_and_volatility S draws R).1.length = S ∧
    (get_expected_returns_and_volatility S draws R).2.length = S ∧
    (∀ i : Fin S,
      (get_expected_returns_and_volatility S draws R).1.get? i
          = some (get_annualised_portfolio_return
              (create_random_weights (draws i)) R) ∧
      (get_expected_returns_and_volatility S draws R).2.get? i
          = some (get_annualised_portfolio_volatility
              (create_random_weights (draws i)) R)) ∧
    (∀ v ∈ (get_expected_returns_and_volatility S draws R).2, 0 ≤ v) := by
  simp only [get_expected_returns_and_volatility]
  refine ⟨List.length_ofFn _, List.length_ofFn _, fun i => ⟨?_, ?_⟩, ?_⟩
  · rw [List.get?_ofFn]
    rw [List.ofFnNthVal, dif_pos i.isLt]
  · rw [List.get?_ofFn]
    rw [List.ofFnNthVal, dif_pos i.isLt]
  · intro v hv
    rw [List.mem_ofFn] at hv
    obtain ⟨i, hi⟩ := hv
    rw [← hi]
    exact Real.sqrt_nonneg _

/-- Witness for claim C7's theorem at a concrete input: a single simulation
over one asset and one time step. -/
theorem expected_returns_and_volatility_parallel_witness :
    (get_expected_returns_and_volatility 1 (fun (_ : Fin 1) (_ : Fin 1) => (1 : ℚ))
        (fun (_ : Fin 1) (_ : Fin 1) => (0 : ℚ))).1.length = 1 ∧
    (get_expected_returns_and_volatility 1 (fun (_ : Fin 1) (_ : Fin 1) => (1 : ℚ))
        (fun (_ : Fin 1) (_ : Fin 1) => (0 : ℚ))).2.length = 1 ∧
    (∀ v ∈ (get_expected_returns_and_volatility 1
        (fun (_ : Fin 1) (_ : Fin 1) => (1 : ℚ))
        (fun (_ : Fin 1) (_ : Fin 1) => (0 : ℚ))).2, 0 ≤ v) := by
  have h := expected_returns_and_volatility_parallel 1
    (fun (_ : Fin 1) (_ : Fin 1) => (1 : ℚ)) (fun (_ : Fin 1) (_ : Fin 1) => (0 : ℚ))
  exact ⟨h.1, h.2.1, h.2.2.2⟩

theorem log_ratio_none_left (b : Option ℚ) : log_ratio none b = none := by
  cases b <;> rfl

theorem log_ratio_none_right (a : Option ℚ) : log_ratio a none = none := by
  cases a <;> rfl

theorem log_ratio_nonpos (a b : ℚ) (h : b / a ≤ 0) :
    log_ratio (some a) (some b) = none := by
  show (if 0 < b / a then some (Real.log (((b / a : ℚ) : ℝ))) else none) = none
  exact if_neg (not_lt.mpr h)

theorem log_returns_col_cons (p : Option ℚ) (cs : List (Option ℚ)) :
    log_returns_col (p :: cs)
      = none :: List.zipWith log_ratio ((p :: cs).dropLast) cs := by
  rw [log_returns_col, shift1, List.zipWith_cons_cons, log_ratio_none_left]

/-- Claim C4 (amended): `_get_log_returns_df` keeps every row of the fetched
price series — on `T+1` price rows it returns `T+1` log-return rows, not
`T` — and the first row, which has no predecessor, is kept as an undefined
(NaN) sentinel rather than dropped. -/
theorem log_returns_keeps_first_row (xs : List (Option ℚ)) :
    (log_returns_col xs).length = xs.length ∧
    (log_returns_col xs).head?.getD none = none := by
  constructor
  · rw [log_returns_col, List.length_zipWith, shift1]
    simp only [List.length_cons, List.length_dropLast]
    omega
  · cases xs with
    | nil => rfl
    | cons p cs => rw [log_returns_col_cons]; rfl

/-- Counterexample refuting claim C4 as stated: the 3-row price column
`[1, 2, 4]` (so `T = 2`) yields a log-return column of 3 rows, not 2, and
its first row is the sentinel NaN (`none`) — the pipeline returns it
unchanged inside `Except.ok`. -/
theorem first_row_not_dropped_counterexample :
    get_log_returns_df (some [[some 1, some 2, some 4]])
      = .ok [log_returns_col [some 1, some 2, some 4]] ∧
    ¬ ((log_returns_col [some (1 : ℚ), some 2, some 4]).length = 2) ∧
    (log_returns_col [some (1 : ℚ), some 2, some 4]).head? = some none := by
  refine ⟨rfl, ?_, ?_⟩
  · have h3 : (log_returns_col [some (1 : ℚ), some 2, some 4]).length = 3 := rfl
    omega
  · rw [log_returns_col_cons]
    rfl

/-- Claim C3 (amended): `_get_log_returns_df` performs no validation at all —
no `InsufficientDataError` and no `InvalidPriceError` exist in the code.  For
any non-empty fetched table it returns `Except.ok` of the elementwise
log-ratio frame; a missing price or a non-positive price ratio makes the
affected cell undefined (NaN) silently, and a table with fewer than 2 time
steps yields a column whose every cell is undefined, again without error. -/
theorem log_returns_no_validation :
    (∀ table : List (List (Option ℚ)), table.all List.isEmpty = false →
      get_log_returns_df (some table) = .ok (table.map log_returns_col)) ∧
    (∀ b : Option ℚ, log_ratio none b = none) ∧
    (∀ a : Option ℚ, log_ratio a none = none) ∧
    (∀ a b : ℚ, b / a ≤ 0 → log_ratio (some a) (some b) = none) ∧
    (∀ xs : List (Option ℚ), xs.length < 2 → ∀ y ∈ log_returns_col xs, y = none) := by
  refine ⟨?_, log_ratio_none_left, log_ratio_none_right, log_ratio_nonpos, ?_⟩
  · intro table ht
    rw [get_log_returns_df, get_historical_ticker_data]
    rw [if_neg (by rw [ht]; exact Bool.false_ne_true)]
    rfl
  · intro xs h y hy
    match xs with
    | [] => simp [log_returns_col, shift1] at hy
    | [x] =>
        rw [log_returns_col_cons] at hy
        simp only [List.dropLast_single, List.zipWith_nil_right] at hy
        simpa using hy
    | x :: x' :: rest =>
        exfalso
        simp only [List.length_cons] at h
        omega

/-- Counterexample refuting claim C3 as stated: a fetched column containing
the non-positive price `-1` (log-return undefined) makes
`_get_log_returns_df` return `Except.ok` with a silently-undefined cell —
no `InvalidPriceError` — and a single-row table (fewer than 2 time steps)
likewise returns `ok` with an undefined cell — no `InsufficientDataError`. -/
theorem invalid_price_silent_counterexample :
    get_log_returns_df (some [[some 1, some (-1)]]) = .ok [[none, none]] ∧
    get_log_returns_df (some [[some 5]]) = .ok [[none]] := by
  constructor
  · have h2 : log_returns_col [some (1 : ℚ), some (-1)] = [none, none] := by
      show [log_ratio none (some (1 : ℚ)),
            log_ratio (some (1 : ℚ)) (some (-1))] = [none, none]
      rw [log_ratio_none_left, log_ratio_nonpos 1 (-1) (by norm_num)]
    show (Except.ok [log_returns_col [some (1 : ℚ), some (-1)]]
        : Except MarketDataError (List (List (Option ℝ))))
      = Except.ok [[none, none]]
    rw [h2]
  · have h1 : log_returns_col [some (5 : ℚ)] = [none] := by
      show [log_ratio none (some (5 : ℚ))] = [none]
      rw [log_ratio_none_left]
    show (Except.ok [log_returns_col [some (5 : ℚ)]]
        : Except MarketDataError (List (List (Option ℝ))))
      = Except.ok [[none]]
    rw [h1]

/-- Witness for claim C3's amended theorem at concrete inputs. -/
theorem log_returns_no_validation_witness :
    get_log_returns_df (some [[some (2 : ℚ), some 3]])
      = .ok ([[some (2 : ℚ), some 3]].map log_returns_col) ∧
    log_ratio (some (1 : ℚ)) (some (-2)) = none ∧
    (∀ y ∈ log_returns_col [some (7 : ℚ)], y = none) :=
  ⟨log_returns_no_validation.1 [[some (2 : ℚ), some 3]] rfl,
   log_returns_no_validation.2.2.2.1 1 (-2) (by norm_num),
   log_returns_no_validation.2.2.2.2 [some (7 : ℚ)] (by norm_num)⟩

/-- Claim C8: whenever the market data provider returns no data or an empty
table, the fetch raises the data-unavailable error and both optimise
pipelines propagate it unchanged, never producing any `PortfolioResult`. -/
theorem empty_data_unavailable (fetched : Option (List (List (Option ℚ))))
    (o o' : SolverResultL)
    (h : fetched = none ∨ ∃ t, fetched = some t ∧ t.all List.isEmpty = true) :
    get_historical_ticker_data fetched = .error .dataUnavailable ∧
    MaximumSharpeRatioOptimiser.optimise_portfolio_pipeline fetched o
      = .error .dataUnavailable ∧
    MinimumVolatilityOptimiser.optimise_portfolio_pipeline fetched o'
      = .error .dataUnavailable ∧
    (∀ r, MaximumSharpeRatioOptimiser.optimise_portfolio_pipeline fetched o
      ≠ .ok r) ∧
    (∀ r, MinimumVolatilityOptimiser.optimise_portfolio_pipeline fetched o'
      ≠ .ok r) := by
  have hist : get_historical_ticker_data fetched = .error .dataUnavailable := by
    rcases h with rfl | ⟨t, rfl, ht⟩
    · rfl
    · simp only [get_historical_ticker_data]
      rw [if_pos ht]
  have h1 : MaximumSharpeRatioOptimiser.optimise_portfolio_pipeline fetched o
      = .error .dataUnavailable := by
    rw [MaximumSharpeRatioOptimiser.optimise_portfolio_pipeline,
        get_log_returns_df, hist]
    rfl
  have h2 : MinimumVolatilityOptimiser.optimise_portfolio_pipeline fetched o'
      = .error .dataUnavailable := by
    rw [MinimumVolatilityOptimiser.optimise_portfolio_pipeline,
        get_log_returns_df, hist]
    rfl
  refine ⟨hist, h1, h2, fun r hr => ?_, fun r hr => ?_⟩
  · rw [h1] at hr
    exact Except.noConfusion hr
  · rw [h2] at hr
    exact Except.noConfusion hr

/-- Witness for claim C8's theorem: the provider returns no data at all. -/
theorem empty_data_unavailable_witness :
    get_historical_ticker_data (none : Option (List (List (Option ℚ))))
      = .error .dataUnavailable ∧
    MaximumSharpeRatioOptimiser.optimise_portfolio_pipeline none ⟨[], true⟩
      = .error .dataUnavailable ∧
    MinimumVolatilityOptimiser.optimise_portfolio_pipeline none ⟨[], true⟩
      = .error .dataUnavailable ∧
    (∀ r, MaximumSharpeRatioOptimiser.optimise_portfolio_pipeline none ⟨[], true⟩
      ≠ .ok r) ∧
    (∀ r, MinimumVolatilityOptimiser.optimise_portfolio_pipeline none ⟨[], true⟩
      ≠ .ok r) :=
  empty_data_unavailable none ⟨[], true⟩ ⟨[], true⟩ (Or.inl rfl)

/-- Claim C9: the solver's convergence flag is discarded — the pipeline
result is the same for a converged and a non-converged outcome with the same
iterate — and whenever the data fetch succeeds the pipeline returns
`Except.ok` of the result built from the solver's (rounded) best iterate:
no `OptimisationError` can reach the caller once the solver returns. -/
theorem convergence_flag_discarded (fetched : Option (List (List (Option ℚ))))
    (x : List ℚ) (b b' : Bool) :
    (MaximumSharpeRatioOptimiser.optimise_portfolio_pipeline fetched ⟨x, b⟩
      = MaximumSharpeRatioOptimiser.optimise_portfolio_pipeline fetched ⟨x, b'⟩) ∧
    (MinimumVolatilityOptimiser.optimise_portfolio_pipeline fetched ⟨x, b⟩
      = MinimumVolatilityOptimiser.optimise_portfolio_pipeline fetched ⟨x, b'⟩) ∧
    (∀ table, get_historical_ticker_data fetched = .ok table →
      (MaximumSharpeRatioOptimiser.optimise_portfolio_pipeline fetched ⟨x, b⟩
        = .ok (build_portfolio_result (table.map log_returns_col) ⟨x, b⟩)) ∧
      (MinimumVolatilityOptimiser.optimise_portfolio_pipeline fetched ⟨x, b⟩
        = .ok (build_portfolio_result (table.map log_returns_col) ⟨x, b⟩)) ∧
      (build_portfolio_result (table.map log_returns_col) ⟨x, b⟩).weights
        = x.map round3) := by
  refine ⟨rfl, rfl, fun table ht => ⟨?_, ?_, rfl⟩⟩
  · rw [MaximumSharpeRatioOptimiser.optimise_portfolio_pipeline,
        get_log_returns_df, ht]
    rfl
  · rw [MinimumVolatilityOptimiser.optimise_portfolio_pipeline,
        get_log_returns_df, ht]
    rfl

/-- Witness for claim C9's theorem at a concrete input: a one-ticker,
two-row table, comparing a converged and a non-converged solver outcome. -/
theorem convergence_flag_discarded_witness :
    (MaximumSharpeRatioOptimiser.optimise_portfolio_pipeline
        (some [[some 1, some 2]]) ⟨[1], true⟩
      = MaximumSharpeRatioOptimiser.optimise_portfolio_pipeline
        (some [[some 1, some 2]]) ⟨[1], false⟩) ∧
    (MaximumSharpeRatioOptimiser.optimise_portfolio_pipeline
        (some [[some 1, some 2]]) ⟨[1], true⟩
      = .ok (build_portfolio_result ([[some 1, some 2]].map log_returns_col)
          ⟨[1], true⟩)) ∧
    (build_portfolio_result ([[some 1, some 2]].map log_returns_col)
        ⟨[1], true⟩).weights = [1].map round3 := by
  have h := convergence_flag_discarded (some [[some 1, some 2]]) [1] true false
  have h2 := h.2.2 [[some 1, some 2]] rfl
  exact ⟨h.1, h2.1, h2.2.2⟩

theorem nanMean_none_cons (xs : List (Option ℝ)) :
    nanMean (none :: xs) = nanMean xs := by
  simp [nanMean]

theorem pairwiseComplete_none_cons (y : Option ℝ) (xs ys : List (Option ℝ)) :
    pairwiseComplete (none :: xs) (y :: ys) = pairwiseComplete xs ys := by
  simp [pairwiseComplete]

theorem nanCov_none_cons (y : Option ℝ) (xs ys : List (Option ℝ)) :
    nanCov (none :: xs) (y :: ys) = nanCov xs ys := by
  rw [nanCov, nanCov, pairwiseComplete_none_cons]

theorem zipWith_log_ratio_isSome :
    ∀ (xs ys : List (Option ℚ)),
      (∀ o ∈ xs, ∃ q, o = some q ∧ 0 < q) →
      (∀ o ∈ ys, ∃ q, o = some q ∧ 0 < q) →
      ∀ y ∈ List.zipWith log_ratio xs ys, y.isSome = true := by
  intro xs
  induction xs with
  | nil => intro ys _ _ y hy; simp at hy
  | cons a as ih =>
      intro ys hx hy y hmem
      cases ys with
      | nil => simp at hmem
      | cons b bs =>
          rw [List.zipWith_cons_cons] at hmem
          rcases List.mem_cons.mp hmem with h | h
          · obtain ⟨qa, ha, hqa⟩ := hx a (List.mem_cons_self a as)
            obtain ⟨qb, hb, hqb⟩ := hy b (List.mem_cons_self b bs)
            subst ha hb h
            show (if 0 < qb / qa then some (Real.log (((qb / qa : ℚ) : ℝ)))
                else none).isSome = true
            rw [if_pos (div_pos hqb hqa)]
            rfl
          · exact ih bs (fun o ho => hx o (List.mem_cons_of_mem a ho))
              (fun o ho => hy o (List.mem_cons_of_mem b ho)) y h

/-- Claim C10: for a price table of at least 2 rows of strictly positive
prices, the NaN-skipping column mean and pairwise-complete covariance that
the optimisers and the sampler apply to the log-return frame (whose first
row is NaN) coincide with the same statistics of the frame with its first
row removed, and every later row of the frame is defined — downstream
statistics behave exactly as if the undefined first row had been dropped. -/
theorem nan_row_stats_match_dropped (c c' : List (Option ℚ))
    (hc : 2 ≤ c.length) (hc' : 2 ≤ c'.length)
    (hp : ∀ o ∈ c, ∃ q, o = some q ∧ 0 < q)
    (hp' : ∀ o ∈ c', ∃ q, o = some q ∧ 0 < q) :
    nanMean (log_returns_col c) = nanMean ((log_returns_col c).tail) ∧
    nanCov (log_returns_col c) (log_returns_col c')
      = nanCov ((log_returns_col c).tail) ((log_returns_col c').tail) ∧
    (∀ y ∈ (log_returns_col c).tail, y.isSome = true) := by
  cases c with
  | nil => simp at hc
  | cons p cs =>
    cases c' with
    | nil => simp at hc'
    | cons p' cs' =>
      rw [log_returns_col_cons, log_returns_col_cons]
      refine ⟨nanMean_none_cons _, nanCov_none_cons _ _ _, ?_⟩
      simp only [List.tail_cons]
      apply zipWith_log_ratio_isSome
      · intro o ho
        exact hp o ((List.dropLast_sublist _).subset ho)
      · intro o ho
        exact hp o (List.mem_cons_of_mem p ho)

/-- Witness for claim C10's theorem at a concrete input: the positive price
column `[1, 2]` taken for both columns. -/
theorem nan_row_stats_match_dropped_witness :
    nanMean (log_returns_col [some (1 : ℚ), some 2])
      = nanMean ((log_returns_col [some (1 : ℚ), some 2]).tail) ∧
    nanCov (log_returns_col [some (1 : ℚ), some 2])
        (log_returns_col [some (1 : ℚ), some 2])
      = nanCov ((log_returns_col [some (1 : ℚ), some 2]).tail)
          ((log_returns_col [some (1 : ℚ), some 2]).tail) ∧
    (∀ y ∈ (log_returns_col [some (1 : ℚ), some 2]).tail, y.isSome = true) := by
  have hp : ∀ o ∈ [some (1 : ℚ), some 2], ∃ q, o = some q ∧ 0 < q := by
    intro o ho
    rcases List.mem_cons.mp ho with rfl | ho2
    · exact ⟨1, rfl, by norm_num⟩
    rcases List.mem_cons.mp ho2 with rfl | ho3
    · exact ⟨2, rfl, by norm_num⟩
    · simp at ho3
  exact nan_row_stats_match_dropped [some 1, some 2] [some 1, some 2]
    (by norm_num) (by norm_num) hp hp
